import Mathlib

/-!
Shallow embedding of the pvanalytics quality-analysis core: the daytime
classifier (`daytime.diff`) and the Hampel outlier filter (`hampel`), together
with the clear-sky-style input families used by the repository's tests.

The repository excerpt contains only the tests
(`pvanalytics/tests/features/test_daytime.py`) and an example script
(`docs/examples/hampel-outlier-detection.py`); the implementations in
`pvanalytics/features/daytime.py` and `pvanalytics/quality/outliers.py` are not
part of the excerpt, so both core functions are modelled from the
specification, as the doc comments of `daytime.diff` and `hampel` record.
-/

/-- A time series: an ordered sequence of timestamps (in minutes since an
epoch) paired with numeric values.  Timestamps and values are kept as two
parallel lists, following the spec's data model of an ordered timestamp
sequence plus an ordered value sequence. -/
structure Series where
  index : List Nat
  values : List ℚ
deriving DecidableEq

/-- A boolean mask aligned with a series: one boolean per input timestamp. -/
structure BoolSeries where
  index : List Nat
  values : List Bool
deriving DecidableEq

namespace daytime

/-- Value of a series at a position (0 when out of range). -/
def valAt (s : Series) (i : Nat) : ℚ := s.values.getD i 0

/-- Calendar day of the timestamp at a position (1440 minutes per day). -/
def dayIdx (s : Series) (i : Nat) : Nat := s.index.getD i 0 / 1440

/-- First difference of the series values; the first sample has no
predecessor and its difference is taken to be zero (no change). -/
def diffAt (s : Series) (i : Nat) : ℚ :=
  if i = 0 then 0 else valAt s i - valAt s (i - 1)

/-- There is an upward transition (strictly positive first difference) at or
before position `i` within the same calendar day. -/
def rampUpBefore (s : Series) (i : Nat) : Bool :=
  (List.range (i + 1)).any fun j =>
    (dayIdx s j == dayIdx s i) && decide (0 < diffAt s j)

/-- There is a downward transition (strictly negative first difference)
after position `i` within the same calendar day. -/
def rampDownAfter (s : Series) (i : Nat) : Bool :=
  (List.range s.values.length).any fun k =>
    decide (i < k) && (dayIdx s k == dayIdx s i) && decide (diffAt s k < 0)

/-- Modelled from the spec: the daytime classifier
`pvanalytics.features.daytime.diff` (its implementation file
`pvanalytics/features/daytime.py` is absent from the excerpt; only its tests
are present).  Following the spec's design-level algorithm: (1) compute a
first-difference measure of local change; (2) threshold it to tell "ramping"
(sunrise/sunset transitions, nonzero change) from flat night-time or
flat-clipped values — the threshold sits at zero change, a relative criterion
that is independent of global scaling and of sample spacing; (3) reconstruct
contiguous day intervals per diurnal cycle: a sample is day when an upward
transition occurs at or before it and a downward transition occurs after it
within the same calendar day, which closes gaps within a single diurnal cycle
even if the raw signal briefly touches zero mid-day.  The mask is a new
object carrying the input's timestamp index. -/
def diff (s : Series) : BoolSeries :=
  ⟨s.index,
    (List.range s.values.length).map fun i => rampUpBefore s i && rampDownAfter s i⟩

end daytime

/-- The reference day mask used by the tests: `series > 0`. -/
def dayMask (s : Series) : List Bool :=
  s.values.map fun v => decide (0 < v)

/-- The shoulder band used by the tests: day samples (`series > 0`) whose
value is at most `c` units. -/
def shoulderMask (s : Series) (c : ℚ) : List Bool :=
  s.values.map fun v => decide (0 < v) && decide (v ≤ c)

/-- Pointwise OR of two equal-length boolean masks. -/
def orMask (a b : List Bool) : List Bool := List.zipWith or a b

/-- The test modification that zeroes a contiguous block of positions
`ga..gb` (a mid-day excursion to zero). -/
def zeroInterval (s : Series) (ga gb : Nat) : Series :=
  ⟨s.index,
    (List.range s.values.length).map fun i =>
      if ga ≤ i ∧ i ≤ gb then 0 else daytime.valAt s i⟩

/-- The test modification that ceiling-caps all values at a constant `c`
(clipping). -/
def clip (s : Series) (c : ℚ) : Series :=
  ⟨s.index, s.values.map fun v => min v c⟩

/-- The test modification that scales whole calendar days by per-day factors
(overcast days). -/
def scaleDays (s : Series) (f : Nat → ℚ) : Series :=
  ⟨s.index,
    (List.range s.values.length).map fun i =>
      f (daytime.dayIdx s i) * daytime.valAt s i⟩

/-- Error taxonomy for malformed configuration parameters. -/
inductive ConfigurationError where
  | invalidWindow
deriving DecidableEq

/-- Insert a value into a sorted list of rationals. -/
def insertSorted (x : ℚ) : List ℚ → List ℚ
  | [] => [x]
  | y :: ys => if x ≤ y then x :: y :: ys else y :: insertSorted x ys

/-- Insertion sort on rationals. -/
def sortQ : List ℚ → List ℚ
  | [] => []
  | x :: xs => insertSorted x (sortQ xs)

/-- Median of a list of rationals: middle element of the sorted list, or the
mean of the two middle elements for even length (0 for an empty list). -/
def median (xs : List ℚ) : ℚ :=
  let s := sortQ xs
  if xs.length = 0 then 0
  else if xs.length % 2 = 1 then s.getD (xs.length / 2) 0
  else (s.getD (xs.length / 2 - 1) 0 + s.getD (xs.length / 2) 0) / 2

/-- Centered neighborhood of half-width `w / 2` around position `i`,
truncated at series boundaries (smaller window near the edges, never padded
or dropped). -/
def neighborhood (vs : List ℚ) (w i : Nat) : List ℚ :=
  ((List.range vs.length).filter fun j =>
      decide (i - w / 2 ≤ j) && decide (j ≤ i + w / 2)).map fun j => vs.getD j 0

/-- One position of the Hampel filter: flag the sample when its deviation
from the local median exceeds 3 times the MAD-based scale estimate
(MAD scaled by 1.4826 to approximate a standard deviation). -/
def hampelFlag (vs : List ℚ) (w i : Nat) : Bool :=
  let nb := neighborhood vs w i
  let med := median nb
  let scale := (14826 / 10000 : ℚ) * median (nb.map fun x => |x - med|)
  decide (3 * scale < |vs.getD i 0 - med|)

/-- Modelled from the spec: the Hampel outlier filter
`pvanalytics.quality.outliers.hampel` (its implementation file
`pvanalytics/quality/outliers.py` is absent from the excerpt; only the
example script calls it).  Per the spec: the window must be a positive
integer no larger than the series length, otherwise the call fails fast with
a `ConfigurationError` rather than silently truncating; for each position the
local median and the MAD-based scale (scaled by 1.4826) are computed over a
centered neighborhood truncated at the boundaries, and the sample is flagged
when its deviation from the local median exceeds 3 times the scale.  The mask
is a new object carrying the input's timestamp index. -/
def hampel (s : Series) (window : Int) : Except ConfigurationError BoolSeries :=
  if 0 < window ∧ window ≤ (s.values.length : Int) then
    Except.ok ⟨s.index,
      (List.range s.values.length).map (hampelFlag s.values window.toNat)⟩
  else
    Except.error ConfigurationError.invalidWindow

/-- The family of inputs quantified over by the daytime-classifier claims: a
clear-sky-like series with a genuine zero floor at night and a contiguous
stretch of strictly positive values during each day.  Formally: timestamps
and values align; calendar days are monotone along the series; values are
nonnegative; the series starts at night; nights span calendar-day
boundaries; the positive samples of each calendar day are contiguous; and
after any positive sample the night resumes before the calendar day ends. -/
structure ClearSkyLike (s : Series) : Prop where
  len_eq : s.index.length = s.values.length
  days_mono : ∀ j, j < s.values.length → ∀ i, i ≤ j →
    daytime.dayIdx s i ≤ daytime.dayIdx s j
  nonneg : ∀ i, i < s.values.length → 0 ≤ daytime.valAt s i
  start_night : 0 < s.values.length → daytime.valAt s 0 = 0
  night_boundary : ∀ i, i < s.values.length → i + 1 < s.values.length →
    daytime.dayIdx s i ≠ daytime.dayIdx s (i + 1) →
    daytime.valAt s i = 0 ∧ daytime.valAt s (i + 1) = 0
  day_contig : ∀ k, k < s.values.length → ∀ j, j < s.values.length →
    ∀ i, i < s.values.length → i ≤ j → j ≤ k →
    daytime.dayIdx s i = daytime.dayIdx s k →
    0 < daytime.valAt s i → 0 < daytime.valAt s k → 0 < daytime.valAt s j
  night_resumes : ∀ i, i < s.values.length → 0 < daytime.valAt s i →
    ∃ k, k < s.values.length ∧ i < k ∧
      daytime.dayIdx s i = daytime.dayIdx s k ∧ daytime.valAt s k = 0

/-- A small concrete clear-sky-like series (one diurnal cycle, hourly
spacing): night, a rise to a mid-day peak, and a return to night. -/
def csDemo : Series := ⟨[0, 60, 120, 180, 240], [0, 2, 5, 2, 0]⟩

set_option synthInstance.maxSize 2000 in
/-- The demonstration series is clear-sky-like. -/
theorem csDemo_clearSkyLike : ClearSkyLike csDemo := by
  constructor <;> decide

section MaskLemmas

lemma valAt_eq_getElem (s : Series) (i : Nat) (h : i < s.values.length) :
    daytime.valAt s i = s.values[i] :=
  List.getD_eq_getElem s.values 0 h

lemma diff_values_length (s : Series) :
    (daytime.diff s).values.length = s.values.length := by
  simp [daytime.diff]

lemma dayMask_length (s : Series) : (dayMask s).length = s.values.length := by
  simp [dayMask]

lemma diff_values_getElem (s : Series) (i : Nat)
    (h : i < (daytime.diff s).values.length) :
    (daytime.diff s).values[i] = (daytime.rampUpBefore s i && daytime.rampDownAfter s i) := by
  simp [daytime.diff]

lemma dayMask_getElem (s : Series) (i : Nat) (h : i < (dayMask s).length) :
    (dayMask s)[i] = decide (0 < daytime.valAt s i) := by
  have hi : i < s.values.length := by simpa [dayMask] using h
  simp [dayMask, valAt_eq_getElem s i hi]

lemma rampUpBefore_iff (s : Series) (i : Nat) :
    daytime.rampUpBefore s i = true ↔
      ∃ j, j ≤ i ∧ daytime.dayIdx s j = daytime.dayIdx s i ∧ 0 < daytime.diffAt s j := by
  simp [daytime.rampUpBefore, List.any_eq_true, Nat.lt_succ_iff]

lemma rampDownAfter_iff (s : Series) (i : Nat) :
    daytime.rampDownAfter s i = true ↔
      ∃ k, k < s.values.length ∧ i < k ∧
        daytime.dayIdx s k = daytime.dayIdx s i ∧ daytime.diffAt s k < 0 := by
  simp [daytime.rampDownAfter, List.any_eq_true]
  tauto

end MaskLemmas

section MasterTheorem

/-- Master lemma: on any series `t` that agrees with a clear-sky-like series
`s` in length and calendar-day structure, keeps `s`'s nights at zero, keeps
values nonnegative, and keeps the first and last day sample of each calendar
day of `s` strictly positive, the classifier mask of `t` is exactly the day
mask of `s`.  All the tested modifications (identity, mid-day zeroing,
clipping, overcast scaling) satisfy these conditions. -/
theorem diff_eq_dayMask (s t : Series) (hcs : ClearSkyLike s)
    (hlen : t.values.length = s.values.length)
    (hday : ∀ i, daytime.dayIdx t i = daytime.dayIdx s i)
    (hZ : ∀ i, i < s.values.length → daytime.valAt s i = 0 → daytime.valAt t i = 0)
    (hN : ∀ i, i < s.values.length → 0 ≤ daytime.valAt t i)
    (hA : ∀ i, 0 < i → i < s.values.length → 0 < daytime.valAt s i →
      daytime.valAt s (i - 1) = 0 → 0 < daytime.valAt t i)
    (hB : ∀ i, i + 1 < s.values.length → 0 < daytime.valAt s i →
      daytime.valAt s (i + 1) = 0 → 0 < daytime.valAt t i) :
    (daytime.diff t).values = dayMask s := by
  apply List.ext_getElem
  · rw [diff_values_length, dayMask_length, hlen]
  intro i h1 h2
  have hn : i < s.values.length := by
    have := h2; rwa [dayMask_length] at this
  rw [diff_values_getElem t i h1, dayMask_getElem s i h2]
  by_cases hpos : 0 < daytime.valAt s i
  · rw [decide_eq_true hpos]
    rw [Bool.and_eq_true]
    constructor
    · -- sunrise: the first day sample of this calendar day gives an upward
      -- transition at or before i
      rw [rampUpBefore_iff]
      have hex : ∃ j, daytime.dayIdx s j = daytime.dayIdx s i ∧ 0 < daytime.valAt s j :=
        ⟨i, rfl, hpos⟩
      have haP := Nat.find_spec hex
      set a := Nat.find hex with ha_def
      have ha_le : a ≤ i := Nat.find_min' hex ⟨rfl, hpos⟩
      have han : a < s.values.length := lt_of_le_of_lt ha_le hn
      have ha_pos : 0 < a := by
        rcases Nat.eq_zero_or_pos a with h0 | h0
        · exfalso
          have h00 := hcs.start_night (lt_of_le_of_lt (Nat.zero_le i) hn)
          rw [h0] at haP
          rw [h00] at haP
          exact lt_irrefl 0 haP.2
        · exact h0
      have hsucc : a - 1 + 1 = a := Nat.succ_pred_eq_of_pos ha_pos
      have hprev : daytime.valAt s (a - 1) = 0 := by
        by_cases hd : daytime.dayIdx s (a - 1) = daytime.dayIdx s i
        · have hmin := Nat.find_min hex (Nat.sub_lt ha_pos one_pos)
          have hnp : ¬ 0 < daytime.valAt s (a - 1) := fun hp => hmin ⟨hd, hp⟩
          exact le_antisymm (not_lt.mp hnp) (hcs.nonneg (a - 1) (by omega))
        · exfalso
          have hb := hcs.night_boundary (a - 1) (by omega) (by omega) ?_
          · apply absurd haP.2
            rw [← hsucc] at haP ⊢
            rw [hb.2]
            exact lt_irrefl 0
          · rw [hsucc]
            intro hcontra
            exact hd (hcontra.trans haP.1)
      refine ⟨a, ha_le, ?_, ?_⟩
      · rw [hday, hday, haP.1]
      · have hta : 0 < daytime.valAt t a := hA a ha_pos han haP.2 hprev
        have htp : daytime.valAt t (a - 1) = 0 := hZ (a - 1) (by omega) hprev
        unfold daytime.diffAt
        rw [if_neg (by omega : ¬ a = 0), htp]
        linarith
    · -- sunset: the first night sample after this calendar day's day block
      -- gives a downward transition after i
      rw [rampDownAfter_iff]
      have hexb : ∃ k, k < s.values.length ∧ i < k ∧
          daytime.dayIdx s i = daytime.dayIdx s k ∧ daytime.valAt s k = 0 :=
        hcs.night_resumes i hn hpos
      have hbP := Nat.find_spec hexb
      set b := Nat.find hexb with hb_def
      obtain ⟨hb_lt, hib, hb_day, hb_zero⟩ := hbP
      have hb1 : 0 < daytime.valAt s (b - 1) := by
        by_cases hbi : b - 1 = i
        · rw [hbi]; exact hpos
        · have hib1 : i < b - 1 := by omega
          have d1 : daytime.dayIdx s i ≤ daytime.dayIdx s (b - 1) :=
            hcs.days_mono (b - 1) (by omega) i (by omega)
          have d2 : daytime.dayIdx s (b - 1) ≤ daytime.dayIdx s b :=
            hcs.days_mono b hb_lt (b - 1) (by omega)
          have d2' : daytime.dayIdx s (b - 1) ≤ daytime.dayIdx s i := by
            rw [hb_day]; exact d2
          have hdq : daytime.dayIdx s i = daytime.dayIdx s (b - 1) :=
            le_antisymm d1 d2'
          have hmin := Nat.find_min hexb (show b - 1 < b by omega)
          have hnz : daytime.valAt s (b - 1) ≠ 0 := by
            intro hz
            exact hmin ⟨by omega, hib1, hdq, hz⟩
          exact lt_of_le_of_ne (hcs.nonneg (b - 1) (by omega)) (Ne.symm hnz)
      have hsb : b - 1 + 1 = b := by omega
      have htb1 : 0 < daytime.valAt t (b - 1) := by
        apply hB (b - 1) (by omega) hb1
        rw [hsb]; exact hb_zero
      have htb : daytime.valAt t b = 0 := hZ b hb_lt hb_zero
      refine ⟨b, by omega, hib, ?_, ?_⟩
      · rw [hday, hday, hb_day]
      · unfold daytime.diffAt
        rw [if_neg (by omega : ¬ b = 0), htb]
        linarith
  · -- night sample of s: t has no same-day upward transition before together
    -- with a downward transition after
    have hzero : daytime.valAt s i = 0 :=
      le_antisymm (not_lt.mp hpos) (hcs.nonneg i hn)
    rw [decide_eq_false hpos]
    rw [Bool.and_eq_false_iff]
    by_contra hcon
    push_neg at hcon
    obtain ⟨hu, hd⟩ := hcon
    rw [Bool.ne_false_iff] at hu hd
    obtain ⟨j, hji, hjd, hjp⟩ := (rampUpBefore_iff t i).mp hu
    obtain ⟨k, hk_lt, hik, hkd, hkn⟩ := (rampDownAfter_iff t i).mp hd
    have hkn' : k < s.values.length := by omega
    have hj0 : j ≠ 0 := by
      intro h0
      rw [h0] at hjp
      unfold daytime.diffAt at hjp
      rw [if_pos rfl] at hjp
      exact lt_irrefl 0 hjp
    have hjn : j < s.values.length := lt_of_le_of_lt hji hn
    have htj : 0 < daytime.valAt t j := by
      unfold daytime.diffAt at hjp
      rw [if_neg hj0] at hjp
      have := hN (j - 1) (by omega)
      linarith
    have hsj : 0 < daytime.valAt s j := by
      by_contra hns
      have : daytime.valAt s j = 0 :=
        le_antisymm (not_lt.mp hns) (hcs.nonneg j hjn)
      have := hZ j hjn this
      rw [this] at htj
      exact lt_irrefl 0 htj
    have hk0 : k ≠ 0 := by omega
    have htk1 : 0 < daytime.valAt t (k - 1) := by
      unfold daytime.diffAt at hkn
      rw [if_neg hk0] at hkn
      have := hN k hkn'
      linarith
    have hsk1 : 0 < daytime.valAt s (k - 1) := by
      by_contra hns
      have hz : daytime.valAt s (k - 1) = 0 :=
        le_antisymm (not_lt.mp hns) (hcs.nonneg (k - 1) (by omega))
      have := hZ (k - 1) (by omega) hz
      rw [this] at htk1
      exact lt_irrefl 0 htk1
    -- day indices all agree with that of i
    have hjd' : daytime.dayIdx s j = daytime.dayIdx s i := by
      rw [← hday, ← hday]; exact hjd
    have hkd' : daytime.dayIdx s k = daytime.dayIdx s i := by
      rw [← hday, ← hday]; exact hkd
    have hk1d : daytime.dayIdx s (k - 1) = daytime.dayIdx s i := by
      have d1 : daytime.dayIdx s i ≤ daytime.dayIdx s (k - 1) :=
        hcs.days_mono (k - 1) (by omega) i (by omega)
      have d2 : daytime.dayIdx s (k - 1) ≤ daytime.dayIdx s k :=
        hcs.days_mono k hkn' (k - 1) (by omega)
      rw [hkd'] at d2
      exact le_antisymm d2 d1
    have := hcs.day_contig (k - 1) (by omega) i hn j hjn hji (by omega)
      (by rw [hjd', hk1d]) hsj hsk1
    rw [hzero] at this
    exact lt_irrefl 0 this

end MasterTheorem

section ModificationLemmas

lemma getD_map_range (f : Nat → ℚ) (n i : Nat) (h : i < n) :
    ((List.range n).map f).getD i 0 = f i := by
  have hl : i < ((List.range n).map f).length := by simpa using h
  rw [List.getD_eq_getElem _ _ hl]
  simp

lemma zeroInterval_length (s : Series) (ga gb : Nat) :
    (zeroInterval s ga gb).values.length = s.values.length := by
  simp [zeroInterval]

lemma valAt_zeroInterval (s : Series) (ga gb i : Nat) (h : i < s.values.length) :
    daytime.valAt (zeroInterval s ga gb) i =
      if ga ≤ i ∧ i ≤ gb then 0 else daytime.valAt s i := by
  unfold daytime.valAt zeroInterval
  exact getD_map_range _ _ i h

lemma clip_length (s : Series) (c : ℚ) :
    (clip s c).values.length = s.values.length := by
  simp [clip]

lemma valAt_clip (s : Series) (c : ℚ) (i : Nat) (h : i < s.values.length) :
    daytime.valAt (clip s c) i = min (daytime.valAt s i) c := by
  unfold daytime.valAt clip
  have hl : i < (s.values.map fun v => min v c).length := by simpa using h
  rw [List.getD_eq_getElem _ _ hl, List.getElem_map, List.getD_eq_getElem _ _ h]

lemma scaleDays_length (s : Series) (f : Nat → ℚ) :
    (scaleDays s f).values.length = s.values.length := by
  simp [scaleDays]

lemma valAt_scaleDays (s : Series) (f : Nat → ℚ) (i : Nat) (h : i < s.values.length) :
    daytime.valAt (scaleDays s f) i = f (daytime.dayIdx s i) * daytime.valAt s i := by
  unfold daytime.valAt scaleDays
  exact getD_map_range _ _ i h

lemma orMask_map_map (f g : ℚ → Bool) (h : ∀ x, (f x || g x) = f x) :
    ∀ l : List ℚ, orMask (l.map f) (l.map g) = l.map f := by
  intro l
  induction l with
  | nil => rfl
  | cons x xs ih =>
    simp only [List.map_cons, orMask, List.zipWith_cons_cons] at ih ⊢
    rw [h x, ih]

lemma orMask_dayMask_shoulder (s : Series) (c : ℚ) :
    orMask (dayMask s) (shoulderMask s c) = dayMask s := by
  unfold dayMask shoulderMask
  exact orMask_map_map _ _ (fun x => by cases h : decide (0 < x) <;> simp [h]) _

end ModificationLemmas

/-- C1: for every clear-sky-like input series with a zero floor at night and
a smooth daytime rise, OR-ing the classifier mask with the shoulder band
(day samples with value at most 3 units) yields exactly the reference day
mask (series strictly positive). -/
theorem diff_or_shoulder_eq_dayMask (s : Series) (hcs : ClearSkyLike s) :
    orMask (daytime.diff s).values (shoulderMask s 3) = dayMask s := by
  rw [diff_eq_dayMask s s hcs rfl (fun _ => rfl) (fun i _ h => h) hcs.nonneg
      (fun i _ _ h _ => h) (fun i _ h _ => h)]
  exact orMask_dayMask_shoulder s 3

/-- Witness for C1 at the concrete series `csDemo`. -/
theorem diff_or_shoulder_eq_dayMask_witness :
    ClearSkyLike csDemo ∧
      orMask (daytime.diff csDemo).values (shoulderMask csDemo 3) = dayMask csDemo :=
  ⟨csDemo_clearSkyLike, diff_or_shoulder_eq_dayMask csDemo csDemo_clearSkyLike⟩

/-- C3: for every clear-sky-like series modified by a mid-day excursion to
zero (a contiguous block of zeroed samples strictly inside the day block:
the original values on the block and on both adjacent samples are strictly
positive), the classifier mask of the modified series OR-ed with the
shoulder band of the original series still equals the original series' day
mask — no false night inside a diurnal cycle. -/
theorem diff_midday_zero (s : Series) (ga gb : Nat) (c : ℚ) (hcs : ClearSkyLike s)
    (hgap : ∀ i, i ≤ gb + 1 → ga - 1 ≤ i → 0 < daytime.valAt s i) :
    orMask (daytime.diff (zeroInterval s ga gb)).values (shoulderMask s c) = dayMask s := by
  rw [diff_eq_dayMask s (zeroInterval s ga gb) hcs (zeroInterval_length s ga gb)
      (fun _ => rfl) ?_ ?_ ?_ ?_]
  · exact orMask_dayMask_shoulder s c
  · intro i hi hz
    rw [valAt_zeroInterval s ga gb i hi]
    split
    · rfl
    · exact hz
  · intro i hi
    rw [valAt_zeroInterval s ga gb i hi]
    split
    · exact le_refl 0
    · exact hcs.nonneg i hi
  · intro i hipos hi hv hprev
    rw [valAt_zeroInterval s ga gb i hi]
    split
    · exfalso
      rename_i hin
      have := hgap (i - 1) (by omega) (by omega)
      rw [hprev] at this
      exact lt_irrefl 0 this
    · exact hv
  · intro i hi1 hv hnext
    rw [valAt_zeroInterval s ga gb i (by omega)]
    split
    · exfalso
      rename_i hin
      have := hgap (i + 1) (by omega) (by omega)
      rw [hnext] at this
      exact lt_irrefl 0 this
    · exact hv

/-- Witness for C3: zeroing the mid-day sample of `csDemo`. -/
theorem diff_midday_zero_witness :
    ClearSkyLike csDemo ∧ (∀ i, i ≤ 3 → 1 ≤ i → 0 < daytime.valAt csDemo i) ∧
      orMask (daytime.diff (zeroInterval csDemo 2 2)).values (shoulderMask csDemo 2) =
        dayMask csDemo :=
  ⟨csDemo_clearSkyLike, by decide,
    diff_midday_zero csDemo 2 2 2 csDemo_clearSkyLike (by decide)⟩

/-- C4: for every clear-sky-like series ceiling-capped at a positive
constant (clipping), the classifier applied to the clipped series still
matches the unclipped reference day mask up to the shoulder band, without
any externally supplied clipping mask (the classifier takes no such
argument). -/
theorem diff_clipping (s : Series) (c : ℚ) (hcs : ClearSkyLike s) (hc : 0 < c) :
    orMask (daytime.diff (clip s c)).values (shoulderMask s 3) = dayMask s := by
  rw [diff_eq_dayMask s (clip s c) hcs (clip_length s c) (fun _ => rfl) ?_ ?_ ?_ ?_]
  · exact orMask_dayMask_shoulder s 3
  · intro i hi hz
    rw [valAt_clip s c i hi, hz]
    exact min_eq_left hc.le
  · intro i hi
    rw [valAt_clip s c i hi]
    exact le_min (hcs.nonneg i hi) hc.le
  · intro i _ hi hv _
    rw [valAt_clip s c i hi]
    exact lt_min hv hc
  · intro i hi1 hv _
    rw [valAt_clip s c i (by omega)]
    exact lt_min hv hc

/-- Witness for C4: clipping `csDemo` at 4. -/
theorem diff_clipping_witness :
    ClearSkyLike csDemo ∧ (0 : ℚ) < 4 ∧
      orMask (daytime.diff (clip csDemo 4)).values (shoulderMask csDemo 3) = dayMask csDemo :=
  ⟨csDemo_clearSkyLike, by norm_num,
    diff_clipping csDemo 4 csDemo_clearSkyLike (by norm_num)⟩

/-- C5: for every clear-sky-like series whose calendar days are scaled by
per-day factors between one half and one (overcast days), the classifier
mask is unaffected: OR-ed with the shoulder band it still equals the day
mask, with no day samples misclassified as night. -/
theorem diff_overcast (s : Series) (f : Nat → ℚ) (hcs : ClearSkyLike s)
    (hf : ∀ d, 1 / 2 ≤ f d ∧ f d ≤ 1) :
    orMask (daytime.diff (scaleDays s f)).values (shoulderMask s 3) = dayMask s := by
  have hfpos : ∀ d, 0 < f d := fun d => lt_of_lt_of_le (by norm_num) (hf d).1
  rw [diff_eq_dayMask s (scaleDays s f) hcs (scaleDays_length s f) (fun _ => rfl) ?_ ?_ ?_ ?_]
  · exact orMask_dayMask_shoulder s 3
  · intro i hi hz
    rw [valAt_scaleDays s f i hi, hz, mul_zero]
  · intro i hi
    rw [valAt_scaleDays s f i hi]
    exact mul_nonneg (hfpos _).le (hcs.nonneg i hi)
  · intro i _ hi hv _
    rw [valAt_scaleDays s f i hi]
    exact mul_pos (hfpos _) hv
  · intro i hi1 hv _
    rw [valAt_scaleDays s f i (by omega)]
    exact mul_pos (hfpos _) hv

/-- Witness for C5: scaling every day of `csDemo` by one half. -/
theorem diff_overcast_witness :
    ClearSkyLike csDemo ∧ (∀ d : Nat, (1 : ℚ) / 2 ≤ 1 / 2 ∧ (1 : ℚ) / 2 ≤ 1) ∧
      orMask (daytime.diff (scaleDays csDemo fun _ => 1 / 2)).values
        (shoulderMask csDemo 3) = dayMask csDemo :=
  ⟨csDemo_clearSkyLike, fun _ => ⟨le_refl _, by norm_num⟩,
    diff_overcast csDemo (fun _ => 1 / 2) csDemo_clearSkyLike
      (fun _ => ⟨le_refl _, by norm_num⟩)⟩

/-- C6: for clear-sky-like series sampled at 1-minute, 15-minute, or 1-hour
spacing (timestamps in arithmetic progression with step 1, 15, or 60
minutes), the classifier gives the same qualitative result: the mask OR-ed
with the shoulder band equals the reference day mask, for every such
spacing. -/
theorem diff_sample_spacing (s : Series) (m t0 : Nat)
    (hm : m = 1 ∨ m = 15 ∨ m = 60)
    (hidx : ∀ j, j < s.index.length → s.index.getD j 0 = t0 + j * m)
    (hcs : ClearSkyLike s) :
    orMask (daytime.diff s).values (shoulderMask s 3) = dayMask s := by
  rw [diff_eq_dayMask s s hcs rfl (fun _ => rfl) (fun i _ h => h) hcs.nonneg
      (fun i _ _ h _ => h) (fun i _ h _ => h)]
  exact orMask_dayMask_shoulder s 3

/-- Witness for C6: `csDemo` has hourly spacing (step 60). -/
theorem diff_sample_spacing_witness :
    (60 = 1 ∨ 60 = 15 ∨ 60 = 60) ∧
      (∀ j, j < csDemo.index.length → csDemo.index.getD j 0 = 0 + j * 60) ∧
      ClearSkyLike csDemo ∧
      orMask (daytime.diff csDemo).values (shoulderMask csDemo 3) = dayMask csDemo :=
  ⟨Or.inr (Or.inr rfl), by decide, csDemo_clearSkyLike,
    diff_sample_spacing csDemo 60 0 (Or.inr (Or.inr rfl)) (by decide) csDemo_clearSkyLike⟩

lemma dayMask_getD (s : Series) (i : Nat) (h : i < s.values.length) :
    (dayMask s).getD i false = decide (0 < daytime.valAt s i) := by
  have hl : i < (dayMask s).length := by rw [dayMask_length]; exact h
  rw [List.getD_eq_getElem _ _ hl, dayMask_getElem s i hl]

/-- C9: the shoulder tolerance is one-directional: on a clear-sky-like
series the classifier is never `True` where the reference value is zero (no
false day at night) and never `False` at a day sample whose value exceeds
the shoulder bound of 3 units. -/
theorem diff_shoulder_one_directional (s : Series) (hcs : ClearSkyLike s) :
    ∀ i, i < s.values.length →
      (daytime.valAt s i = 0 → (daytime.diff s).values.getD i false = false) ∧
      (3 < daytime.valAt s i → (daytime.diff s).values.getD i false = true) := by
  intro i hi
  rw [diff_eq_dayMask s s hcs rfl (fun _ => rfl) (fun i _ h => h) hcs.nonneg
      (fun i _ _ h _ => h) (fun i _ h _ => h), dayMask_getD s i hi]
  constructor
  · intro hz
    rw [hz]
    simp
  · intro h3
    rw [decide_eq_true (lt_trans (by norm_num) h3)]

/-- Witness for C9 at the peak sample of `csDemo`. -/
theorem diff_shoulder_one_directional_witness :
    ClearSkyLike csDemo ∧ 2 < csDemo.values.length ∧
      ((daytime.valAt csDemo 2 = 0 → (daytime.diff csDemo).values.getD 2 false = false) ∧
        (3 < daytime.valAt csDemo 2 → (daytime.diff csDemo).values.getD 2 false = true)) :=
  ⟨csDemo_clearSkyLike, by decide,
    diff_shoulder_one_directional csDemo csDemo_clearSkyLike 2 (by decide)⟩

/-- C10: the mid-day-zero tolerance extends to a zeroed span inside a
clipped day: capping a clear-sky-like series at a positive constant and then
zeroing a contiguous block strictly inside the day block still yields the
unclipped reference's day mask up to the shoulder band. -/
theorem diff_clipping_midday_zero (s : Series) (ga gb : Nat) (c : ℚ)
    (hcs : ClearSkyLike s) (hc : 0 < c)
    (hgap : ∀ i, i ≤ gb + 1 → ga - 1 ≤ i → 0 < daytime.valAt s i) :
    orMask (daytime.diff (zeroInterval (clip s c) ga gb)).values (shoulderMask s 3) =
      dayMask s := by
  have hlen : (zeroInterval (clip s c) ga gb).values.length = s.values.length := by
    rw [zeroInterval_length, clip_length]
  rw [diff_eq_dayMask s (zeroInterval (clip s c) ga gb) hcs hlen (fun _ => rfl) ?_ ?_ ?_ ?_]
  · exact orMask_dayMask_shoulder s 3
  · intro i hi hz
    rw [valAt_zeroInterval (clip s c) ga gb i (by rw [clip_length]; exact hi)]
    split
    · rfl
    · rw [valAt_clip s c i hi, hz]
      exact min_eq_left hc.le
  · intro i hi
    rw [valAt_zeroInterval (clip s c) ga gb i (by rw [clip_length]; exact hi)]
    split
    · exact le_refl 0
    · rw [valAt_clip s c i hi]
      exact le_min (hcs.nonneg i hi) hc.le
  · intro i hipos hi hv hprev
    rw [valAt_zeroInterval (clip s c) ga gb i (by rw [clip_length]; exact hi)]
    split
    · exfalso
      rename_i hin
      have := hgap (i - 1) (by omega) (by omega)
      rw [hprev] at this
      exact lt_irrefl 0 this
    · rw [valAt_clip s c i hi]
      exact lt_min hv hc
  · intro i hi1 hv hnext
    rw [valAt_zeroInterval (clip s c) ga gb i (by rw [clip_length]; omega)]
    split
    · exfalso
      rename_i hin
      have := hgap (i + 1) (by omega) (by omega)
      rw [hnext] at this
      exact lt_irrefl 0 this
    · rw [valAt_clip s c i (by omega)]
      exact lt_min hv hc

/-- Witness for C10: clipping `csDemo` at 4 and zeroing the mid-day sample. -/
theorem diff_clipping_midday_zero_witness :
    ClearSkyLike csDemo ∧ (0 : ℚ) < 4 ∧
      (∀ i, i ≤ 3 → 1 ≤ i → 0 < daytime.valAt csDemo i) ∧
      orMask (daytime.diff (zeroInterval (clip csDemo 4) 2 2)).values
        (shoulderMask csDemo 3) = dayMask csDemo :=
  ⟨csDemo_clearSkyLike, by norm_num, by decide,
    diff_clipping_midday_zero csDemo 2 2 4 csDemo_clearSkyLike (by norm_num) (by decide)⟩

/-- C2: for every series (and every window for the Hampel filter), the
output mask has the same length as the input values and carries the
identical timestamp index; the Hampel filter's truncated-window edge policy
keeps the output aligned as well.  In this purely functional embedding each
call constructs a new mask and input series are never mutated. -/
theorem mask_alignment (s : Series) (w : Int) :
    (daytime.diff s).index = s.index ∧
    (daytime.diff s).values.length = s.values.length ∧
    ∀ r, hampel s w = Except.ok r →
      r.index = s.index ∧ r.values.length = s.values.length := by
  refine ⟨rfl, diff_values_length s, ?_⟩
  intro r hr
  unfold hampel at hr
  by_cases hw : 0 < w ∧ w ≤ (s.values.length : Int)
  · rw [if_pos hw] at hr
    injection hr with h
    rw [← h]
    exact ⟨rfl, by simp⟩
  · rw [if_neg hw] at hr
    exact absurd hr (by simp)

/-- Witness for C2 at `csDemo` with window 1. -/
theorem mask_alignment_witness :
    (daytime.diff csDemo).index = csDemo.index ∧
    (daytime.diff csDemo).values.length = csDemo.values.length ∧
    ((BoolSeries.mk csDemo.index
          ((List.range csDemo.values.length).map
            (hampelFlag csDemo.values (Int.toNat 1)))).index = csDemo.index ∧
      (BoolSeries.mk csDemo.index
          ((List.range csDemo.values.length).map
            (hampelFlag csDemo.values (Int.toNat 1)))).values.length =
        csDemo.values.length) :=
  ⟨(mask_alignment csDemo 1).1, (mask_alignment csDemo 1).2.1,
    (mask_alignment csDemo 1).2.2 _ (by
      unfold hampel
      rw [if_pos (by decide)])⟩

/-- C7: for every series and every window argument that is not a positive
integer at most the series length, the Hampel filter fails fast with a
`ConfigurationError` instead of truncating the window or returning a mask. -/
theorem hampel_invalid_window (s : Series) (w : Int)
    (hw : ¬(0 < w ∧ w ≤ (s.values.length : Int))) :
    hampel s w = Except.error ConfigurationError.invalidWindow := by
  unfold hampel
  rw [if_neg hw]

/-- Witness for C7: window 0 on `csDemo`. -/
theorem hampel_invalid_window_witness :
    ¬((0 : Int) < 0 ∧ (0 : Int) ≤ (csDemo.values.length : Int)) ∧
      hampel csDemo 0 = Except.error ConfigurationError.invalidWindow :=
  ⟨by decide, hampel_invalid_window csDemo 0 (by decide)⟩

/-- C8 counterexample: on an empty series the Hampel filter does raise: even
the smallest positive window 1 is rejected with a `ConfigurationError`,
because no window is both positive and at most the (zero) series length. -/
theorem hampel_empty_series_raises :
    hampel ⟨[], []⟩ 1 = Except.error ConfigurationError.invalidWindow := rfl

/-- C8 (amended): on a single-sample series with the only valid window 1 the
Hampel filter returns a single `False`; on a flat all-zero series the
daytime classifier returns an all-`False` mask (and, being a total function,
raises no exception on empty or degenerate series); the Hampel filter,
however, rejects an empty series with a `ConfigurationError` for every
window, as its window-validation policy requires. -/
theorem degenerate_series_results (t : Nat) (x : ℚ) (s : Series)
    (hflat : ∀ i, i < s.values.length → daytime.valAt s i = 0) :
    hampel ⟨[t], [x]⟩ 1 = Except.ok ⟨[t], [false]⟩ ∧
      (daytime.diff s).values = List.replicate s.values.length false := by
  constructor
  · unfold hampel
    have hcond : (0 : Int) < 1 ∧ (1 : Int) ≤ ((Series.mk [t] [x]).values.length : Int) := by
      refine ⟨by norm_num, ?_⟩
      simp
    rw [if_pos hcond]
    have hnb : neighborhood [x] 1 0 = [x] := rfl
    have hflag : hampelFlag [x] 1 0 = false := by
      simp only [hampelFlag, hnb]
      have hmed : median [x] = x := by
        simp [median, sortQ, insertSorted]
      rw [hmed]
      simp [median, sortQ, insertSorted, sub_self]
    rw [show List.range (Series.mk [t] [x]).values.length = [0] from rfl]
    simp [hflag]
  · have hv : ∀ j, daytime.valAt s j = 0 := by
      intro j
      by_cases hj : j < s.values.length
      · exact hflat j hj
      · exact List.getD_eq_default _ _ (by omega)
    have hd : ∀ j, daytime.diffAt s j = 0 := by
      intro j
      unfold daytime.diffAt
      split
      · rfl
      · rw [hv j, hv (j - 1), sub_zero]
    have hfalse : ∀ i ∈ List.range s.values.length,
        (daytime.rampUpBefore s i && daytime.rampDownAfter s i) = false := by
      intro i _
      have hup : daytime.rampUpBefore s i = false := by
        apply Bool.eq_false_iff.mpr
        intro h
        obtain ⟨j, _, _, hjp⟩ := (rampUpBefore_iff s i).mp h
        rw [hd j] at hjp
        exact lt_irrefl 0 hjp
      rw [hup, Bool.false_and]
    unfold daytime.diff
    calc ((List.range s.values.length).map
            fun i => daytime.rampUpBefore s i && daytime.rampDownAfter s i)
        = (List.range s.values.length).map fun _ => false :=
          List.map_congr_left hfalse
      _ = List.replicate s.values.length false := by
          rw [List.map_const']
          rw [List.length_range]

/-- Witness for C8 (amended): a one-sample series and a flat two-sample
series. -/
theorem degenerate_series_results_witness :
    (∀ i, i < (Series.mk [0, 60] [0, 0]).values.length →
        daytime.valAt (Series.mk [0, 60] [0, 0]) i = 0) ∧
      (hampel ⟨[5], [7]⟩ 1 = Except.ok ⟨[5], [false]⟩ ∧
        (daytime.diff (Series.mk [0, 60] [0, 0])).values =
          List.replicate (Series.mk [0, 60] [0, 0]).values.length false) :=
  ⟨by decide, degenerate_series_results 5 7 (Series.mk [0, 60] [0, 0]) (by decide)⟩
